import Mathlib

/-!
Shallow embedding of the wosfile core: the Web of Science plain-text and
tab-delimited readers, the format detector, and the `Record` layer of
`wos/record.py`.

The repository sources provide `wos/record.py` and the reader test-suite;
the reader module itself and the field classification table are only
exercised by those tests, so they are modelled from the specification.
Every such definition carries a doc comment starting `Modelled from the
spec:`.  Streams are embedded as lists of already-decoded text lines.
-/

namespace Wosfile

/-- Decidable equality on `Except`, used to evaluate the embedded
operations on concrete inputs. -/
instance {ε α : Type} [DecidableEq ε] [DecidableEq α] :
    DecidableEq (Except ε α) := fun a b =>
  match a, b with
  | Except.ok x, Except.ok y =>
    if h : x = y then isTrue (by rw [h]) else isFalse (by simp [h])
  | Except.error x, Except.error y =>
    if h : x = y then isTrue (by rw [h]) else isFalse (by simp [h])
  | Except.ok _, Except.error _ => isFalse (by simp)
  | Except.error _, Except.ok _ => isFalse (by simp)

/-! ## String primitives

Structural (kernel-evaluable) embeddings of the Python string operations
the source uses: `str.split(sep)`, `str.strip()`, slicing and
`str.startswith`. -/

/-- One step of left-to-right splitting: `fuel` bounds the number of steps
(one character is consumed per step, so the length of the input
suffices); `acc` holds the current group, reversed. -/
def splitOnFuel (sep : List Char) : Nat → List Char → List Char → List (List Char)
  | _, [], acc => [acc.reverse]
  | 0, c :: rest, acc => [acc.reverse ++ c :: rest]
  | fuel + 1, c :: rest, acc =>
    if sep.isPrefixOf (c :: rest) ∧ sep ≠ [] then
      acc.reverse :: splitOnFuel sep fuel ((c :: rest).drop sep.length) []
    else splitOnFuel sep fuel rest (c :: acc)

/-- Python `s.split(sep)` for a non-empty separator: split on every
left-to-right non-overlapping occurrence; always at least one group. -/
def splitOnStr (s sep : String) : List String :=
  if sep = "" then [s]
  else (splitOnFuel sep.data s.data.length s.data []).map String.mk

/-- Python `s.strip()`: remove leading and trailing whitespace. -/
def strTrim (s : String) : String :=
  String.mk (((s.data.dropWhile Char.isWhitespace).reverse.dropWhile
    Char.isWhitespace).reverse)

/-- Python `s[:n]`. -/
def strTake (s : String) (n : Nat) : String := String.mk (s.data.take n)

/-- Python `s[n:]`. -/
def strDrop (s : String) (n : Nat) : String := String.mk (s.data.drop n)

/-- Python `s.startswith(pre)`. -/
def strStartsWith (s pre : String) : Bool := pre.data.isPrefixOf s.data

/-- Error kinds surfaced by the reader and record layers.  `formatError`
embeds the source's `ReadError` (the spec's FormatError); the remaining
constructors embed the corresponding Python built-in exception classes. -/
inductive PyErr where
  | formatError (msg : String)
  | notImplementedError (tag : String)
  | attributeError (attr : String)
  | keyError (key : String)
  | indexError
  | typeError (msg : String)
  deriving DecidableEq, Repr

/-- A raw record: an ordered mapping from field tag to string value,
embedded as an association list in insertion order. -/
abbrev Raw := List (String × String)

/-- Modelled from the spec: the Field Classification Table (the source's
`is_iterable` mapping in `tags.py`, not among the provided sources) maps
each known two-letter tag to whether its value is multi-valued (iterable).
The entries cover the tags exercised by the spec and the test-suite:
author and address lists are iterable, prose-like fields are not. -/
def isIterableTable : List (String × Bool) :=
  [("AB", false), ("AF", true), ("AU", true), ("BP", false), ("BS", false),
   ("C1", true), ("CR", true), ("CU", true), ("DE", true), ("DI", false),
   ("ID", true), ("J9", false), ("PT", false), ("PY", false), ("SC", false),
   ("SO", false), ("TI", false), ("VL", false)]

/-- Modelled from the spec: looking a tag up in the Field Classification
Table; a tag absent from the table has no defined splitting behaviour and
fails with a NotImplemented-class error. -/
def isIterableLookup (k : String) : Except PyErr Bool :=
  match List.lookup k isIterableTable with
  | some b => Except.ok b
  | none => Except.error (PyErr.notImplementedError k)

/-! ## The `Record` layer (`wos/record.py`) -/

/-- A field value held by a `Record`: either the original string or, for an
iterable field, the list obtained by splitting on the subdelimiter. -/
inductive FieldValue where
  | str (s : String)
  | list (xs : List String)
  deriving DecidableEq, Repr

/-- A `Record` (a `dict` subclass in the source): its configuration plus the
parsed data, embedded as an association list in insertion order. -/
structure Record where
  subdelimiter : String
  skip_empty : Bool
  data : List (String × FieldValue)
  deriving DecidableEq, Repr

/-- The loop body of `Record.parse`: iterate the items of `wos_data` in
order; skip a field whose value is falsy (the empty string) when
`skip_empty` is set; split the value on the subdelimiter when the tag is
classified iterable; store the field.  The items sequence of the mapping is
passed explicitly (see `Record.parsePy3Dict` for what the attribute lookup
`wos_data.iteritems` itself does on a Python 3 `dict`). -/
def parseItems (sd : String) (se : Bool) :
    List (String × String) → Except PyErr (List (String × FieldValue))
  | [] => Except.ok []
  | (k, v) :: rest =>
    if se && v == "" then parseItems sd se rest
    else
      match isIterableLookup k with
      | Except.error e => Except.error e
      | Except.ok true =>
        (parseItems sd se rest).map
          (fun r => (k, FieldValue.list (splitOnStr v sd)) :: r)
      | Except.ok false =>
        (parseItems sd se rest).map (fun r => (k, FieldValue.str v) :: r)

/-- `Record.parse`: clear the record, then run the item loop; the result
depends only on the input items and the record's configuration. -/
def Record.parse (r : Record) (wos_data : List (String × String)) :
    Except PyErr Record :=
  (parseItems r.subdelimiter r.skip_empty wos_data).map
    (fun d => { r with data := d })

/-- Attribute names available on a standard Python 3 `dict` instance
(its methods; `iteritems`, `iterkeys` and `itervalues` were removed in
Python 3). -/
def py3DictAttributes : List String :=
  ["clear", "copy", "fromkeys", "get", "items", "keys", "pop", "popitem",
   "setdefault", "update", "values"]

/-- `Record.parse` as executed on Python 3 with a plain `dict` argument:
`self.clear()` runs, then the loop header evaluates
`wos_data.iteritems()`; a missing attribute raises AttributeError before
any field is stored. -/
def Record.parsePy3Dict (r : Record) (wos_data : List (String × String)) :
    Except PyErr Record :=
  if "iteritems" ∈ py3DictAttributes then
    (parseItems r.subdelimiter r.skip_empty wos_data).map
      (fun d => { r with data := d })
  else Except.error (PyErr.attributeError "iteritems")

/-- `Record.__init__` on Python 3: set the configuration and call `parse`. -/
def Record.mkPy3 (wos_data : List (String × String)) (sd : String)
    (se : Bool) : Except PyErr Record :=
  Record.parsePy3Dict { subdelimiter := sd, skip_empty := se, data := [] } wos_data

/-- `records_from` on Python 3: construct one `Record` per raw record. -/
def records_from (raws : List (List (String × String))) (sd : String)
    (se : Bool) : Except PyErr (List Record) :=
  raws.mapM (fun d => Record.mkPy3 d sd se)

/-- Field lookup on a record's data (Python `self[k]` / `self.get(k)`). -/
def lookupField (rec : List (String × FieldValue)) (k : String) :
    Option FieldValue :=
  List.lookup k rec

/-- `re.sub(r'(.*), (.*)', r'\1 \2', s)`: with both groups greedy the match
spans the whole string and the last occurrence of `", "` is replaced by a
single space; a string without `", "` is unchanged. -/
def removeLastCommaSpace (s : String) : String :=
  let parts := splitOnStr s ", "
  match parts with
  | [] => s
  | [_] => s
  | _ :: _ :: _ =>
    String.intercalate ", " parts.dropLast ++ " " ++ (parts.getLast?.getD "")

/-- Python `self[u"AU"][0]`: first element of a list value, first character
of a string value, IndexError when empty. -/
def fvIndex0 : FieldValue → Except PyErr String
  | FieldValue.list (a :: _) => Except.ok a
  | FieldValue.list [] => Except.error PyErr.indexError
  | FieldValue.str s =>
    match s.data with
    | [] => Except.error PyErr.indexError
    | c :: _ => Except.ok (String.singleton c)

/-- A field value as an item of the final `", ".join(... if item)`: a string
passes through, an empty list is falsy and skipped, a non-empty list makes
the join raise TypeError. -/
def fvJoinValue : FieldValue → Except PyErr (Option String)
  | FieldValue.str s => Except.ok (some s)
  | FieldValue.list [] => Except.ok none
  | FieldValue.list (_ :: _) =>
    Except.error (PyErr.typeError "sequence item: expected str instance")

/-- One of the `u"V" + self[u"VL"] if u"VL" in self else None` components:
string concatenation raises TypeError on a list value. -/
def concatComp (rec : List (String × FieldValue)) (pre k : String) :
    Except PyErr (Option String) :=
  match lookupField rec k with
  | none => Except.ok none
  | some (FieldValue.str s) => Except.ok (some (pre ++ s))
  | some (FieldValue.list _) =>
    Except.error (PyErr.typeError "can only concatenate str")

/-- `self.get(u"J9", self.get(u"BS", self.get(u"SO")))`. -/
def journalField (rec : List (String × FieldValue)) : Option FieldValue :=
  match lookupField rec "J9" with
  | some v => some v
  | none =>
    match lookupField rec "BS" with
    | some v => some v
    | none => lookupField rec "SO"

/-- `Record.record_id` from `wos/record.py`: first author with the last
`", "` removed, year, journal (J9 else BS else SO), then V+VL, P+BP and
DOI+DI when present, joined with `", "` with falsy items dropped. -/
def Record.record_id (r : Record) : Except PyErr String :=
  match lookupField r.data "AU" with
  | none => Except.error (PyErr.keyError "AU")
  | some aufv =>
  match fvIndex0 aufv with
  | Except.error e => Except.error e
  | Except.ok au0 =>
  match lookupField r.data "PY" with
  | none => Except.error (PyErr.keyError "PY")
  | some yearfv =>
  match concatComp r.data "V" "VL" with
  | Except.error e => Except.error e
  | Except.ok vol? =>
  match concatComp r.data "P" "BP" with
  | Except.error e => Except.error e
  | Except.ok page? =>
  match concatComp r.data "DOI " "DI" with
  | Except.error e => Except.error e
  | Except.ok doi? =>
  match fvJoinValue yearfv with
  | Except.error e => Except.error e
  | Except.ok year? =>
  match (match journalField r.data with
         | none => Except.ok none
         | some fv => fvJoinValue fv) with
  | Except.error e => Except.error e
  | Except.ok j? =>
  Except.ok (String.intercalate ", "
    ((([some (removeLastCommaSpace au0), year?, j?, vol?, page?,
        doi?]).filterMap id).filter (fun s => s != "")))

/-! ## Format detector -/

/-- The two reader types. -/
inductive ReaderType where
  | plainText
  | tabDelimited
  deriving DecidableEq, Repr

/-- First line that is not blank (blank: empty after trimming). -/
def firstNonBlank : List String → Option String
  | [] => none
  | l :: ls => if strTrim l = "" then firstNonBlank ls else some l

/-- Modelled from the spec: the format detector `get_reader` reads past
leading blank lines, then inspects the first non-blank line: a line
beginning with "FN" selects the plain-text reader; otherwise a line whose
first tab-separated column is "PT" selects the tab-delimited reader;
anything else fails with FormatError. -/
def get_reader (lines : List String) : Except PyErr ReaderType :=
  match firstNonBlank lines with
  | none => Except.error (PyErr.formatError "unrecognized header")
  | some l =>
    if strStartsWith l "FN" then Except.ok ReaderType.plainText
    else if (splitOnStr l "\t").head? = some "PT" then
      Except.ok ReaderType.tabDelimited
    else Except.error (PyErr.formatError "unrecognized header")

/-! ## Plain-text reader -/

/-- Modelled from the spec: the accepted file-type banner lines. -/
def acceptedBanners : List String := ["FN Thomson Reuters Web of Science"]

/-- Modelled from the spec: plain-text reader construction validates a fixed
two-line preamble — an accepted banner line followed by the version line
"VR 1.0" — and fails with FormatError on any deviation, before any record
is pulled; on success the remaining lines feed iteration. -/
def checkPreamble : List String → Except PyErr (List String)
  | b :: v :: rest =>
    if b ∈ acceptedBanners then
      if v = "VR 1.0" then Except.ok rest
      else Except.error (PyErr.formatError "unsupported version")
    else Except.error (PyErr.formatError "wrong format")
  | _ => Except.error (PyErr.formatError "wrong format")

/-- Classification of one plain-text line. -/
inductive LineKind where
  | blank
  | ef
  | er
  | continuation (content : String)
  | tagged (tag : String) (value : String)
  deriving DecidableEq, Repr

/-- Whether a line is indented (begins with whitespace). -/
def startsWithWS (l : String) : Bool :=
  match l.data with
  | [] => false
  | c :: _ => c.isWhitespace

/-- Modelled from the spec: a line is blank, an indented continuation line
(content trimmed), the "EF" or "ER" terminator (a two-letter tag with no
value), or a content line made of a two-character tag and its trimmed
value. -/
def classifyLine (l : String) : LineKind :=
  if strTrim l = "" then LineKind.blank
  else if startsWithWS l then LineKind.continuation (strTrim l)
  else
    let tg := strTake l 2
    let v := strTrim (strDrop l 2)
    if tg = "EF" ∧ v = "" then LineKind.ef
    else if tg = "ER" ∧ v = "" then LineKind.er
    else LineKind.tagged tg v

/-- Store a field in a raw record, updating in place when the tag is
already present and appending at the end otherwise (Python dict
assignment, preserving insertion order). -/
def updateField (rec : Raw) (k v : String) : Raw :=
  if rec.any (fun p => p.1 == k) then
    rec.map (fun p => if p.1 == k then (k, v) else p)
  else rec ++ [(k, v)]

/-- Modelled from the spec: the plain-text record scanner.  State is the
record under assembly plus the most recently seen tag.  Blank lines are
skipped; "EF" ends iteration (FormatError "missing ER" when a record is
still open); "ER" emits the accumulated record and resets; an indented
continuation line is appended to the last tag's value, joined with the
"; " subdelimiter when that tag is classified iterable and with a single
space otherwise; a tag line stores its field, except that a "PT" line while
a record is open signals a new record before the previous "ER"
(FormatError "missing ER") and a tag absent from the classification table
fails with a NotImplemented-class error.  Exhausting the lines without
"EF" fails with FormatError "missing EF".  Returns the records emitted
before any failure together with the failure, if one occurred. -/
def runPT (table : List (String × Bool)) (rec : Raw) (lt : Option String) :
    List String → List Raw × Option PyErr
  | [] => ([], some (PyErr.formatError "missing EF"))
  | l :: ls =>
    match classifyLine l with
    | LineKind.blank => runPT table rec lt ls
    | LineKind.ef =>
      if rec = [] then ([], none)
      else ([], some (PyErr.formatError "missing ER"))
    | LineKind.er =>
      let rest := runPT table [] none ls
      (rec :: rest.1, rest.2)
    | LineKind.continuation c =>
      match lt with
      | none => ([], some (PyErr.formatError "continuation without tag"))
      | some t =>
        match List.lookup t table, List.lookup t rec with
        | some b, some v =>
          runPT table (updateField rec t (v ++ (if b then "; " else " ") ++ c))
            (some t) ls
        | _, _ => ([], some (PyErr.formatError "continuation without tag"))
    | LineKind.tagged tg v =>
      if tg = "PT" ∧ rec ≠ [] then ([], some (PyErr.formatError "missing ER"))
      else
        match List.lookup tg table with
        | none => ([], some (PyErr.notImplementedError tg))
        | some _ => runPT table (updateField rec tg v) (some tg) ls

/-- Modelled from the spec: the whole plain-text reader — validate the
preamble at construction, then scan the remaining lines for records. -/
def plainTextRead (lines : List String) :
    Except PyErr (List Raw × Option PyErr) :=
  (checkPreamble lines).map (runPT isIterableTable [] none)

/-! ## Tab-delimited reader -/

/-- Modelled from the spec: split a row on tabs and align it positionally
with the header tags; a row with exactly the header's tag count, or one
more column (the extra being discarded), is valid; any other column count
is a malformed-row error. -/
def parseRow (tags : List String) (l : String) : Except PyErr Raw :=
  let cols := splitOnStr l "\t"
  if cols.length = tags.length ∨ cols.length = tags.length + 1 then
    Except.ok (tags.zip cols)
  else Except.error (PyErr.formatError "malformed row")

/-- Modelled from the spec: scan the rows after the header, skipping empty
lines, emitting one raw record per row until a malformed row stops the
scan.  Returns the records emitted before any failure together with the
failure, if one occurred. -/
def runTD (tags : List String) : List String → List Raw × Option PyErr
  | [] => ([], none)
  | l :: ls =>
    if l = "" then runTD tags ls
    else
      match parseRow tags l with
      | Except.error e => ([], some e)
      | Except.ok r =>
        let rest := runTD tags ls
        (r :: rest.1, rest.2)

/-- Modelled from the spec: the whole tab-delimited reader — the first line,
split on tabs, is the header of field tags; every following row becomes one
raw record. -/
def tabDelimitedRead (lines : List String) : List Raw × Option PyErr :=
  match lines with
  | [] => ([], none)
  | h :: rest => runTD (splitOnStr h "\t") rest

/-! ## Auxiliary notions used by the theorems -/

/-- Append a key if it is not present yet. -/
def insKey (acc : List String) (k : String) : List String :=
  if k ∈ acc then acc else acc ++ [k]

/-- The keys of a stream of tags in order of first appearance. -/
def firstAppear (ks : List String) : List String :=
  ks.foldl insKey []

/-- The record built by storing the given fields in order. -/
def buildRecord (pairs : List (String × String)) : Raw :=
  pairs.foldl (fun r p => updateField r p.1 p.2) []

/-- A plain-text tag line for a tag and value. -/
def mkTagLine (t v : String) : String := t ++ " " ++ v

/-- Whether a stored field value is non-empty. -/
def fvNonempty : FieldValue → Prop
  | FieldValue.str s => s ≠ ""
  | FieldValue.list xs => xs ≠ []

/-- The last tag after a run of tag lines (the given one when there is
none). -/
def lastTagOf : List (String × String) → Option String → Option String
  | [], lt => lt
  | p :: ps, _ => lastTagOf ps (some p.1)

/-- Whether `Record.parse` keeps a field: it drops a field with a falsy
value exactly when `skip_empty` is set. -/
def keepField (se : Bool) (p : String × String) : Bool :=
  !(se && p.2 == "")

/-- The record id exactly as described: the journal string is taken from
"J9" if that key is present, else "BS" if present, else "SO". -/
def strFieldOf (rec : List (String × FieldValue)) (k : String) :
    Option String :=
  match lookupField rec k with
  | some (FieldValue.str s) => some s
  | _ => none

/-- The journal component as described by the specification of
`record_id`. -/
def claimJournal (rec : List (String × FieldValue)) : Option String :=
  if (lookupField rec "J9").isSome then strFieldOf rec "J9"
  else if (lookupField rec "BS").isSome then strFieldOf rec "BS"
  else strFieldOf rec "SO"

/-- The record id as described: the `", "`-join of first author (comma
removed), year, journal, V+volume, P+page and DOI+doi, omitting every
absent or falsy component. -/
def claimRecordId (rec : List (String × FieldValue)) (a y : String) :
    String :=
  String.intercalate ", "
    ((([some (removeLastCommaSpace a), some y, claimJournal rec,
        (strFieldOf rec "VL").map (fun v => "V" ++ v),
        (strFieldOf rec "BP").map (fun p => "P" ++ p),
        (strFieldOf rec "DI").map (fun d => "DOI " ++ d)]).filterMap
      id).filter (fun s => s != ""))

/-! ## Helper lemmas -/

theorem splitOnFuel_ne_nil (sep : List Char) :
    ∀ (fuel : Nat) (cs acc : List Char), splitOnFuel sep fuel cs acc ≠ [] := by
  intro fuel
  induction fuel with
  | zero => intro cs acc; cases cs <;> simp [splitOnFuel]
  | succ n ih =>
    intro cs acc
    cases cs with
    | nil => simp [splitOnFuel]
    | cons c rest =>
      simp only [splitOnFuel]
      split
      · simp
      · exact ih rest (c :: acc)

theorem splitOnStr_ne_nil (s sep : String) : splitOnStr s sep ≠ [] := by
  unfold splitOnStr
  split
  · simp
  · simpa using splitOnFuel_ne_nil sep.data s.data.length s.data []

theorem any_key_iff (rec : Raw) (k : String) :
    (rec.any fun p => p.1 == k) = true ↔ k ∈ rec.map Prod.fst := by
  induction rec with
  | nil => simp
  | cons p ps ih =>
    simp only [List.any_cons, Bool.or_eq_true, ih, List.map_cons,
      List.mem_cons, beq_iff_eq]
    constructor
    · rintro (h | h)
      · exact Or.inl h.symm
      · exact Or.inr h
    · rintro (h | h)
      · exact Or.inl h.symm
      · exact Or.inr h

theorem updateField_keys (rec : Raw) (k v : String) :
    (updateField rec k v).map Prod.fst = insKey (rec.map Prod.fst) k := by
  unfold updateField insKey
  by_cases h : (rec.any fun p => p.1 == k) = true
  · rw [if_pos h, if_pos ((any_key_iff rec k).mp h), List.map_map]
    apply List.map_congr_left
    intro p _
    by_cases hpk : (p.1 == k) = true
    · simp only [Function.comp_apply, hpk, if_true]
      exact (beq_iff_eq.mp hpk).symm
    · simp [Function.comp, hpk]
  · rw [if_neg h, if_neg (fun hm => h ((any_key_iff rec k).mpr hm))]
    simp

theorem updateField_ne_nil (rec : Raw) (k v : String) :
    updateField rec k v ≠ [] := by
  unfold updateField
  split
  · rename_i h
    cases rec with
    | nil => simp at h
    | cons p ps => simp
  · simp

theorem foldl_updateField_keys (pairs : List (String × String)) :
    ∀ rec : Raw,
      ((pairs.foldl (fun r p => updateField r p.1 p.2) rec).map Prod.fst)
        = (pairs.map Prod.fst).foldl insKey (rec.map Prod.fst) := by
  induction pairs with
  | nil => intro rec; rfl
  | cons p ps ih =>
    intro rec
    simp only [List.foldl_cons, List.map_cons]
    rw [ih, updateField_keys]

theorem parseItems_ok_keys (sd : String) (se : Bool) :
    ∀ (items : List (String × String)) (r : List (String × FieldValue)),
      parseItems sd se items = Except.ok r →
      r.map Prod.fst = (items.filter (keepField se)).map Prod.fst := by
  intro items
  induction items with
  | nil =>
    intro r h
    simp only [parseItems] at h
    cases h
    simp
  | cons p rest ih =>
    obtain ⟨k, v⟩ := p
    intro r h
    simp only [parseItems] at h
    by_cases hskip : (se && v == "") = true
    · rw [if_pos hskip] at h
      rw [List.filter_cons_of_neg (by simp [keepField, hskip])]
      exact ih r h
    · rw [if_neg hskip] at h
      cases hlk : isIterableLookup k with
      | error e => rw [hlk] at h; cases h
      | ok b =>
        rw [hlk] at h
        rw [List.filter_cons_of_pos (by simp [keepField, hskip])]
        cases hrest : parseItems sd se rest with
        | error e => rw [hrest] at h; cases b <;> simp [Except.map] at h
        | ok r2 =>
          rw [hrest] at h
          cases b <;> simp only [Except.map, Except.ok.injEq] at h <;>
            rw [← h] <;> simp [ih r2 hrest]

theorem lastTagOf_cons (p : String × String) (ps : List (String × String))
    (lt : Option String) :
    lastTagOf (p :: ps) lt = lastTagOf ps (some p.1) := rfl

theorem runPT_tagged_step (table : List (String × Bool)) (rec : Raw)
    (lt : Option String) (l : String) (ls : List String) (tg v : String)
    (hcl : classifyLine l = LineKind.tagged tg v)
    (hpt : ¬(tg = "PT" ∧ rec ≠ [])) (b : Bool)
    (hb : List.lookup tg table = some b) :
    runPT table rec lt (l :: ls)
      = runPT table (updateField rec tg v) (some tg) ls := by
  simp only [runPT, hcl]
  rw [if_neg hpt, hb]

theorem runPT_tagged_seg (table : List (String × Bool)) :
    ∀ (pairs : List (String × String)) (rec : Raw) (lt : Option String)
      (rest : List String),
      (∀ p ∈ pairs, classifyLine (mkTagLine p.1 p.2) = LineKind.tagged p.1 p.2) →
      (∀ p ∈ pairs, (List.lookup p.1 table).isSome = true) →
      (∀ p ∈ pairs, p.1 ≠ "PT") →
      runPT table rec lt ((pairs.map fun p => mkTagLine p.1 p.2) ++ rest)
        = runPT table (pairs.foldl (fun r p => updateField r p.1 p.2) rec)
            (lastTagOf pairs lt) rest := by
  intro pairs
  induction pairs with
  | nil => intro rec lt rest _ _ _; simp [lastTagOf]
  | cons p ps ih =>
    intro rec lt rest hcl hk hpt
    obtain ⟨b, hb⟩ :=
      Option.isSome_iff_exists.mp (hk p (List.mem_cons_self _ _))
    rw [List.map_cons, List.cons_append,
      runPT_tagged_step table rec lt _ _ _ _ (hcl p (List.mem_cons_self _ _))
        (fun hc => hpt p (List.mem_cons_self _ _) hc.1) b hb,
      ih (updateField rec p.1 p.2) (some p.1) rest
        (fun q hq => hcl q (List.mem_cons_of_mem _ hq))
        (fun q hq => hk q (List.mem_cons_of_mem _ hq))
        (fun q hq => hpt q (List.mem_cons_of_mem _ hq)),
      List.foldl_cons, lastTagOf_cons]

/-! ## Claims -/

/-- C1: in the plain-text reader, an indented continuation line's trimmed
content is appended to the most recent tag's accumulated value with the
"; " subdelimiter inserted when the Field Classification Table marks that
tag iterable, and with a single space and no subdelimiter when it marks
the tag prose; concretely, `AU John Doe` followed by an indented
`Mary Stuart` yields "John Doe; Mary Stuart", and the prose tag SC joins
an analogous continuation with a single space. -/
theorem c1_continuation_join (table : List (String × Bool)) (rec : Raw)
    (ls : List String) (t v c l : String) (b : Bool)
    (hcl : classifyLine l = LineKind.continuation c)
    (hv : List.lookup t rec = some v)
    (hb : List.lookup t table = some b) :
    (runPT table rec (some t) (l :: ls)
       = runPT table (updateField rec t (v ++ (if b then "; " else " ") ++ c))
           (some t) ls)
    ∧ plainTextRead ["FN Thomson Reuters Web of Science", "VR 1.0",
        "PT abc", "AU John Doe", "   Mary Stuart", "ER", "EF"]
      = Except.ok ([[("PT", "abc"), ("AU", "John Doe; Mary Stuart")]], none)
    ∧ plainTextRead ["FN Thomson Reuters Web of Science", "VR 1.0",
        "PT abc", "SC Here; there", "  be dragons; Yes", "ER", "EF"]
      = Except.ok ([[("PT", "abc"),
          ("SC", "Here; there be dragons; Yes")]], none) := by
  refine ⟨?_, by decide, by decide⟩
  simp only [runPT, hcl, hb, hv]

/-- Witness for C1 at the iterable tag AU. -/
theorem c1_continuation_join_witness :
    runPT isIterableTable [("AU", "John Doe")] (some "AU")
        ["   Mary Stuart", "ER", "EF"]
      = ([[("AU", "John Doe; Mary Stuart")]], none) := by
  rw [(c1_continuation_join isIterableTable [("AU", "John Doe")] ["ER", "EF"]
    "AU" "John Doe" "Mary Stuart" "   Mary Stuart" true (by decide) (by decide)
    (by decide)).1]
  decide

/-- C2 (counterexample): on the stream whose first line is blank and whose
second line is a tab-delimited "PT" header, the first line's first
tab-separated column is not "PT" and no line beginning with "FN" is
involved, yet the detector returns the tab-delimited reader type instead
of failing with FormatError — the detector reads past leading blank lines
and inspects the first non-blank line. -/
theorem c2_get_reader_counterexample :
    get_reader ["", "PT\tAU\tC1"] = Except.ok ReaderType.tabDelimited
    ∧ (splitOnStr "" "\t").head? ≠ some "PT"
    ∧ strStartsWith "" "FN" = false
    ∧ firstNonBlank ["", "PT\tAU\tC1"] = some "PT\tAU\tC1"
    ∧ strStartsWith "PT\tAU\tC1" "FN" = false := by decide

/-- C2 (amended): the detector returns the plain-text reader type when the
first non-blank line begins with "FN", the tab-delimited reader type when
the first non-blank line's first tab-separated column is "PT", and fails
with a FormatError for every other stream. -/
theorem c2_get_reader (lines : List String) :
    (∀ l, firstNonBlank lines = some l → strStartsWith l "FN" = true →
       get_reader lines = Except.ok ReaderType.plainText)
    ∧ (∀ l, firstNonBlank lines = some l → strStartsWith l "FN" = false →
       (splitOnStr l "\t").head? = some "PT" →
       get_reader lines = Except.ok ReaderType.tabDelimited)
    ∧ (firstNonBlank lines = none →
       get_reader lines
         = Except.error (PyErr.formatError "unrecognized header"))
    ∧ (∀ l, firstNonBlank lines = some l → strStartsWith l "FN" = false →
       (splitOnStr l "\t").head? ≠ some "PT" →
       get_reader lines
         = Except.error (PyErr.formatError "unrecognized header")) := by
  refine ⟨?_, ?_, ?_, ?_⟩
  · intro l h hfn
    simp [get_reader, h, hfn]
  · intro l h hfn hpt
    simp [get_reader, h, hfn, hpt]
  · intro h
    simp [get_reader, h]
  · intro l h hfn hpt
    simp [get_reader, h, hfn, hpt]

/-- Witness for C2 (amended) on the test-suite's tab-delimited header. -/
theorem c2_get_reader_witness :
    get_reader ["PT\tAF\tAU\tCU\tC1"] = Except.ok ReaderType.tabDelimited :=
  (c2_get_reader ["PT\tAF\tAU\tCU\tC1"]).2.1 "PT\tAF\tAU\tCU\tC1"
    (by decide) (by decide) (by decide)

/-- C3: plain-text reader construction succeeds exactly when the stream's
first two lines are an accepted banner line followed by the version line
"VR 1.0"; on any other stream it fails at construction time with a
FormatError. -/
theorem c3_preamble (lines : List String) :
    ((checkPreamble lines).isOk = true ↔
       ∃ b rest, lines = b :: "VR 1.0" :: rest ∧ b ∈ acceptedBanners)
    ∧ ((checkPreamble lines).isOk = false →
       ∃ m, checkPreamble lines = Except.error (PyErr.formatError m)) := by
  rcases lines with _ | ⟨b, _ | ⟨v, rest⟩⟩
  · exact ⟨by simp [checkPreamble, Except.isOk, Except.toBool],
      fun _ => ⟨"wrong format", rfl⟩⟩
  · exact ⟨by simp [checkPreamble, Except.isOk, Except.toBool],
      fun _ => ⟨"wrong format", rfl⟩⟩
  · by_cases hb : b ∈ acceptedBanners
    · by_cases hv : v = "VR 1.0"
      · subst hv
        have hc : checkPreamble (b :: "VR 1.0" :: rest) = Except.ok rest := by
          simp [checkPreamble, hb]
        refine ⟨?_, ?_⟩
        · rw [hc]
          constructor
          · intro _
            exact ⟨b, rest, rfl, hb⟩
          · intro _
            rfl
        · rw [hc]
          intro h
          simp [Except.isOk, Except.toBool] at h
      · have hc : checkPreamble (b :: v :: rest)
            = Except.error (PyErr.formatError "unsupported version") := by
          simp [checkPreamble, hb, hv]
        refine ⟨?_, fun _ => ⟨_, hc⟩⟩
        rw [hc]
        constructor
        · intro h
          simp [Except.isOk, Except.toBool] at h
        · rintro ⟨b2, rest2, heq, -⟩
          rw [List.cons.injEq, List.cons.injEq] at heq
          exact absurd heq.2.1 hv
    · have hc : checkPreamble (b :: v :: rest)
          = Except.error (PyErr.formatError "wrong format") := by
        simp [checkPreamble, hb]
      refine ⟨?_, fun _ => ⟨_, hc⟩⟩
      rw [hc]
      constructor
      · intro h
        simp [Except.isOk, Except.toBool] at h
      · rintro ⟨b2, rest2, heq, hb2⟩
        rw [List.cons.injEq] at heq
        exact absurd (heq.1 ▸ hb2) hb

/-- Witness for C3 on the test-suite's malformed and well-formed
preambles. -/
theorem c3_preamble_witness :
    (∃ m, checkPreamble ["XY Bla", "VR 1.0"]
       = Except.error (PyErr.formatError m))
    ∧ ((checkPreamble ["FN Thomson Reuters Web of Science", "VR 1.0",
         "PT J"]).isOk = true) :=
  ⟨(c3_preamble ["XY Bla", "VR 1.0"]).2 (by decide),
   (c3_preamble ["FN Thomson Reuters Web of Science", "VR 1.0",
     "PT J"]).1.mpr ⟨"FN Thomson Reuters Web of Science", ["PT J"],
       rfl, by decide⟩⟩

/-- C4: plain-text iteration fails with FormatError "missing ER" when a
new record's tag line (a "PT" line) is met while a record is still open,
fails with FormatError "missing EF" when the lines are exhausted without
an "EF" terminator, and a record already emitted by its "ER" line is kept
in the output whatever happens later; the two test streams that forget an
"ER" or the final "EF" behave accordingly. -/
theorem c4_terminators (table : List (String × Bool)) (rec : Raw)
    (lt : Option String) (l v : String) (ls : List String) :
    (classifyLine l = LineKind.tagged "PT" v → rec ≠ [] →
       runPT table rec lt (l :: ls)
         = ([], some (PyErr.formatError "missing ER")))
    ∧ runPT table rec lt [] = ([], some (PyErr.formatError "missing EF"))
    ∧ (classifyLine l = LineKind.er →
       runPT table rec lt (l :: ls)
         = (rec :: (runPT table [] none ls).1, (runPT table [] none ls).2))
    ∧ plainTextRead ["FN Thomson Reuters Web of Science", "VR 1.0",
        "PT abc", "AU xuz", "ER", "", "PT abc2", "EF"]
      = Except.ok ([[("PT", "abc"), ("AU", "xuz")]],
          some (PyErr.formatError "missing ER"))
    ∧ plainTextRead ["FN Thomson Reuters Web of Science", "VR 1.0",
        "PT abc", "AU xuz", "ER", "", "PT abc2", "ER"]
      = Except.ok ([[("PT", "abc"), ("AU", "xuz")], [("PT", "abc2")]],
          some (PyErr.formatError "missing EF")) := by
  refine ⟨?_, by simp [runPT], ?_, by decide, by decide⟩
  · intro hcl hrec
    simp [runPT, hcl, hrec]
  · intro hcl
    simp only [runPT, hcl]

/-- Witness for C4 at a "PT" line met while a record is open. -/
theorem c4_terminators_witness :
    runPT isIterableTable [("PT", "abc2")] (some "PT") ["PT abc3"]
      = ([], some (PyErr.formatError "missing ER")) :=
  (c4_terminators isIterableTable [("PT", "abc2")] (some "PT") "PT abc3"
    "abc3" []).1 (by decide) (by decide)

/-- C5: a field tag absent from the Field Classification Table fails
immediately with a NotImplemented-class error, an error kind distinct from
FormatError: both in the plain-text reader mid-record and in the
classification lookup that the Record layer's parse applies to each kept
field; the test stream with the unknown tag QQ behaves accordingly. -/
theorem c5_unknown_tag (table : List (String × Bool)) (rec : Raw)
    (lt : Option String) (l tg v : String) (ls : List String)
    (sd : String) (se : Bool) (k vv : String)
    (rest : List (String × String)) :
    (classifyLine l = LineKind.tagged tg v → List.lookup tg table = none →
       ¬(tg = "PT" ∧ rec ≠ []) →
       runPT table rec lt (l :: ls)
         = ([], some (PyErr.notImplementedError tg)))
    ∧ (List.lookup k isIterableTable = none → (se && vv == "") = false →
       parseItems sd se ((k, vv) :: rest)
         = Except.error (PyErr.notImplementedError k))
    ∧ (∀ t m, PyErr.notImplementedError t ≠ PyErr.formatError m)
    ∧ plainTextRead ["FN Thomson Reuters Web of Science", "VR 1.0",
        "PT abc", "", "QQ x", "ER", "EF"]
      = Except.ok ([], some (PyErr.notImplementedError "QQ")) := by
  refine ⟨?_, ?_, fun t m => by simp, by decide⟩
  · intro hcl hlk hpt
    simp only [runPT, hcl]
    rw [if_neg hpt, hlk]
  · intro hlk hskip
    simp [parseItems, isIterableLookup, hlk, hskip]

/-- Witness for C5 at the unknown tag QQ in the Record layer. -/
theorem c5_unknown_tag_witness :
    parseItems "; " true [("QQ", "x")]
      = Except.error (PyErr.notImplementedError "QQ") :=
  (c5_unknown_tag isIterableTable [] none "QQ x" "QQ" "x" [] "; " true "QQ"
    "x" []).2.1 (by decide) (by decide)

/-- C6: a tab-delimited row splitting into the header's tag count plus one
columns, the extra final column being empty, yields exactly one value per
header tag with the extra column discarded; a row whose column count is
neither the tag count nor the tag count plus one is a malformed-row
error; the row with a spurious trailing tab under header PT, AU, C1
yields exactly PT=J, AU=a, C1=b. -/
theorem c6_tab_columns (tags : List String) (l : String) :
    ((splitOnStr l "\t").length = tags.length + 1 →
       (splitOnStr l "\t").getLast? = some "" →
       parseRow tags l = Except.ok (tags.zip (splitOnStr l "\t"))
       ∧ (tags.zip (splitOnStr l "\t")).map Prod.fst = tags)
    ∧ ((splitOnStr l "\t").length ≠ tags.length →
       (splitOnStr l "\t").length ≠ tags.length + 1 →
       parseRow tags l = Except.error (PyErr.formatError "malformed row"))
    ∧ tabDelimitedRead ["PT\tAU\tC1", "J\ta\tb\t"]
      = ([[("PT", "J"), ("AU", "a"), ("C1", "b")]], none) := by
  refine ⟨?_, ?_, by decide⟩
  · intro hlen _
    refine ⟨by simp [parseRow, hlen], ?_⟩
    exact List.map_fst_zip tags _ (by omega)
  · intro h1 h2
    simp [parseRow, h1, h2]

/-- Witness for C6 on the test-suite's spurious-trailing-tab row. -/
theorem c6_tab_columns_witness :
    parseRow ["PT", "AU", "C1"] "J\ta\tb\t"
      = Except.ok [("PT", "J"), ("AU", "a"), ("C1", "b")] := by
  have h := (c6_tab_columns ["PT", "AU", "C1"] "J\ta\tb\t").1
    (by decide) (by decide)
  exact h.1.trans (by decide)

/-- C7: for a well-formed single plain-text record the emitted mapping's
key order equals the order of first appearance of the tags in the source
lines; a valid tab-delimited row's key order equals the header tag order;
and the Record layer's parse preserves the key order of its input modulo
the keys it drops. -/
theorem c7_field_order :
    (∀ pairs : List (String × String),
       (∀ p ∈ pairs, classifyLine (mkTagLine p.1 p.2)
          = LineKind.tagged p.1 p.2) →
       (∀ p ∈ pairs, (List.lookup p.1 isIterableTable).isSome = true) →
       (∀ p ∈ pairs.tail, p.1 ≠ "PT") →
       runPT isIterableTable [] none
           ((pairs.map fun p => mkTagLine p.1 p.2) ++ ["ER", "EF"])
         = ([buildRecord pairs], none)
       ∧ (buildRecord pairs).map Prod.fst
           = firstAppear (pairs.map Prod.fst))
    ∧ (∀ tags l r, parseRow tags l = Except.ok r → r.map Prod.fst = tags)
    ∧ (∀ sd se items r, parseItems sd se items = Except.ok r →
       r.map Prod.fst = (items.filter (keepField se)).map Prod.fst) := by
  refine ⟨?_, ?_, fun sd se => parseItems_ok_keys sd se⟩
  · intro pairs hcl hk hpt
    have hkeys : (buildRecord pairs).map Prod.fst
        = firstAppear (pairs.map Prod.fst) := by
      unfold buildRecord firstAppear
      simpa using foldl_updateField_keys pairs []
    refine ⟨?_, hkeys⟩
    cases pairs with
    | nil => decide
    | cons p ps =>
      obtain ⟨b, hb⟩ :=
        Option.isSome_iff_exists.mp (hk p (List.mem_cons_self _ _))
      rw [List.map_cons, List.cons_append,
        runPT_tagged_step isIterableTable [] none _ _ _ _
          (hcl p (List.mem_cons_self _ _)) (by simp) b hb,
        runPT_tagged_seg isIterableTable ps (updateField [] p.1 p.2)
          (some p.1) ["ER", "EF"]
          (fun q hq => hcl q (List.mem_cons_of_mem _ hq))
          (fun q hq => hk q (List.mem_cons_of_mem _ hq)) hpt]
      have her : classifyLine "ER" = LineKind.er := by decide
      have hef : classifyLine "EF" = LineKind.ef := by decide
      simp only [runPT, her, hef, if_true]
      simp [buildRecord]
  · intro tags l r h
    simp only [parseRow] at h
    split at h
    · rename_i hc
      cases h
      rcases hc with hc | hc
      · exact List.map_fst_zip tags _ (by omega)
      · exact List.map_fst_zip tags _ (by omega)
    · cases h

/-- Witness for C7 on a three-field record, the tab-delimited test row and
a mixed parse input. -/
theorem c7_field_order_witness :
    (runPT isIterableTable [] none
        (([("PT", "abc"), ("AU", "xyz"), ("AB", "abstract")].map
          fun p => mkTagLine p.1 p.2) ++ ["ER", "EF"])
      = ([buildRecord [("PT", "abc"), ("AU", "xyz"), ("AB", "abstract")]],
         none))
    ∧ (buildRecord [("PT", "abc"), ("AU", "xyz"), ("AB", "abstract")]).map
        Prod.fst
      = firstAppear (["PT", "AU", "AB"]) := by
  have h := (c7_field_order).1 [("PT", "abc"), ("AU", "xyz"),
    ("AB", "abstract")] (by decide) (by decide) (by decide)
  exact ⟨h.1, h.2⟩

/-- C8: `Record.parse` invokes `wos_data.iteritems()`, an attribute that
does not exist on a standard Python 3 dict, so it raises AttributeError
before storing any field; hence no Record is ever successfully
constructed from a plain dict, directly or through `records_from`. -/
theorem c8_iteritems (r : Record) (wos_data : List (String × String))
    (raws : List (List (String × String))) (sd : String) (se : Bool) :
    Record.parsePy3Dict r wos_data
      = Except.error (PyErr.attributeError "iteritems")
    ∧ Record.mkPy3 wos_data sd se
      = Except.error (PyErr.attributeError "iteritems")
    ∧ (raws ≠ [] → records_from raws sd se
      = Except.error (PyErr.attributeError "iteritems")) := by
  have h1 : ∀ (rr : Record) d, Record.parsePy3Dict rr d
      = Except.error (PyErr.attributeError "iteritems") := by
    intro rr d
    unfold Record.parsePy3Dict
    rw [if_neg (by decide)]
  refine ⟨h1 r wos_data, h1 _ _, ?_⟩
  intro hne
  cases raws with
  | nil => exact absurd rfl hne
  | cons d ds =>
    unfold records_from
    rw [List.mapM_cons]
    simp only [Record.mkPy3, h1]
    rfl

/-- Witness for C8 on a one-record input. -/
theorem c8_iteritems_witness :
    records_from [[("PT", "J")]] "; " true
      = Except.error (PyErr.attributeError "iteritems") :=
  (c8_iteritems ⟨"; ", true, []⟩ [] [[("PT", "J")]] "; " true).2.2
    (by decide)

theorem parseItems_true_skips (sd : String) :
    ∀ (items : List (String × String)) (r : List (String × FieldValue)),
      (items.map Prod.fst).Nodup →
      parseItems sd true items = Except.ok r →
      ∀ k v, (k, v) ∈ items → v = "" → k ∉ r.map Prod.fst := by
  intro items
  induction items with
  | nil =>
    intro r _ h k v hm
    simp at hm
  | cons q rest ih =>
    obtain ⟨k0, v0⟩ := q
    intro r hnd h k v hm hv
    subst hv
    rw [List.map_cons, List.nodup_cons] at hnd
    obtain ⟨hk0, hnd2⟩ := hnd
    simp only [parseItems] at h
    by_cases hskip : (true && v0 == "") = true
    · rw [if_pos hskip] at h
      rcases List.mem_cons.mp hm with he | hm2
      · injection he with hk hv2
        subst hk
        have hkeys := parseItems_ok_keys sd true rest r h
        intro hc
        apply hk0
        rw [hkeys] at hc
        exact ((List.filter_sublist rest).map Prod.fst).subset hc
      · exact ih r hnd2 h k "" hm2 rfl
    · rw [if_neg hskip] at h
      have hv0 : v0 ≠ "" := by
        intro hh
        subst hh
        simp at hskip
      cases hlk : isIterableLookup k0 with
      | error e => rw [hlk] at h; cases h
      | ok b =>
        rw [hlk] at h
        cases hrest : parseItems sd true rest with
        | error e => rw [hrest] at h; cases b <;> simp [Except.map] at h
        | ok r2 =>
          rw [hrest] at h
          rcases List.mem_cons.mp hm with he | hm2
          · injection he with hk hv2
            exact absurd hv2.symm hv0
          · have hkr : k ∈ rest.map Prod.fst :=
              List.mem_map.mpr ⟨(k, ""), hm2, rfl⟩
            have hne2 : k ≠ k0 := fun hkk => hk0 (hkk ▸ hkr)
            have hnr2 := ih r2 hnd2 hrest k "" hm2 rfl
            cases b <;> simp only [Except.map, Except.ok.injEq] at h <;>
              rw [← h] <;> simp [hne2, hnr2]

theorem parseItems_true_nonempty (sd : String) :
    ∀ (items : List (String × String)) (r : List (String × FieldValue)),
      parseItems sd true items = Except.ok r →
      ∀ p ∈ r, fvNonempty p.2 := by
  intro items
  induction items with
  | nil =>
    intro r h p hp
    simp only [parseItems] at h
    cases h
    simp at hp
  | cons q rest ih =>
    obtain ⟨k0, v0⟩ := q
    intro r h p hp
    simp only [parseItems] at h
    by_cases hskip : (true && v0 == "") = true
    · rw [if_pos hskip] at h
      exact ih r h p hp
    · rw [if_neg hskip] at h
      have hv0 : v0 ≠ "" := by
        intro hh
        subst hh
        simp at hskip
      cases hlk : isIterableLookup k0 with
      | error e => rw [hlk] at h; cases h
      | ok b =>
        rw [hlk] at h
        cases hrest : parseItems sd true rest with
        | error e => rw [hrest] at h; cases b <;> simp [Except.map] at h
        | ok r2 =>
          rw [hrest] at h
          cases b with
          | true =>
            simp only [Except.map, Except.ok.injEq] at h
            rw [← h] at hp
            rcases List.mem_cons.mp hp with he | hp2
            · subst he
              exact splitOnStr_ne_nil v0 sd
            · exact ih r2 hrest p hp2
          | false =>
            simp only [Except.map, Except.ok.injEq] at h
            rw [← h] at hp
            rcases List.mem_cons.mp hp with he | hp2
            · subst he
              exact hv0
            · exact ih r2 hrest p hp2

/-- C9: with skip_empty set (the default) a parsed Record contains no key
whose input value was empty — such fields are omitted entirely — and every
stored value is non-empty; with skip_empty unset every input key is kept;
and parse clears any prior contents, so the result depends only on the
input items, the subdelimiter and skip_empty. -/
theorem c9_skip_empty (sd : String) (items : List (String × String))
    (r : List (String × FieldValue)) (r1 r2 : Record)
    (d : List (String × String)) :
    ((items.map Prod.fst).Nodup → parseItems sd true items = Except.ok r →
       (∀ k v, (k, v) ∈ items → v = "" → k ∉ r.map Prod.fst)
       ∧ (∀ p ∈ r, fvNonempty p.2))
    ∧ (parseItems sd false items = Except.ok r →
       r.map Prod.fst = items.map Prod.fst)
    ∧ (r1.subdelimiter = r2.subdelimiter → r1.skip_empty = r2.skip_empty →
       Record.parse r1 d = Record.parse r2 d) := by
  refine ⟨?_, ?_, ?_⟩
  · intro hnd h
    exact ⟨parseItems_true_skips sd items r hnd h,
      parseItems_true_nonempty sd items r h⟩
  · intro h
    have hkeys := parseItems_ok_keys sd false items r h
    have hfil : items.filter (keepField false) = items :=
      List.filter_eq_self.mpr (fun a _ => by simp [keepField])
    rw [hkeys, hfil]
  · intro h1 h2
    obtain ⟨sd1, se1, d1⟩ := r1
    obtain ⟨sd2, se2, d2⟩ := r2
    dsimp only at h1 h2
    subst h1
    subst h2
    rfl

/-- Witness for C9: the empty-valued field AB is omitted, and two records
differing only in prior contents parse identically. -/
theorem c9_skip_empty_witness :
    (∀ k v, (k, v) ∈ [("PT", "J"), ("AB", "")] → v = "" →
       k ∉ [("PT", FieldValue.str "J")].map Prod.fst)
    ∧ Record.parse ⟨"; ", true, [("XX", FieldValue.str "old")]⟩
        [("PT", "J")]
      = Record.parse ⟨"; ", true, []⟩ [("PT", "J")] :=
  ⟨((c9_skip_empty "; " [("PT", "J"), ("AB", "")]
      [("PT", FieldValue.str "J")] ⟨"; ", true, []⟩ ⟨"; ", true, []⟩
      []).1 (by decide) (by decide)).1,
   (c9_skip_empty "; " [] [] ⟨"; ", true, [("XX", FieldValue.str "old")]⟩
      ⟨"; ", true, []⟩ [("PT", "J")]).2.2 rfl rfl⟩

/-- C10: for a Record whose AU field holds at least one author and whose
PY field holds a string, with each of J9, BS, SO, VL, BP and DI absent or
string-valued, record_id returns the ", "-joined concatenation of the
first author with the comma between name parts removed, the PY value, the
journal from J9 if present else BS if present else SO, then V+VL, P+BP
and DOI+DI when present, omitting every absent or falsy component. -/
theorem c10_record_id (r : Record) (a y : String) (tl : List String)
    (hau : lookupField r.data "AU" = some (FieldValue.list (a :: tl)))
    (hpy : lookupField r.data "PY" = some (FieldValue.str y))
    (hJ9 : lookupField r.data "J9" = none
      ∨ ∃ s, lookupField r.data "J9" = some (FieldValue.str s))
    (hBS : lookupField r.data "BS" = none
      ∨ ∃ s, lookupField r.data "BS" = some (FieldValue.str s))
    (hSO : lookupField r.data "SO" = none
      ∨ ∃ s, lookupField r.data "SO" = some (FieldValue.str s))
    (hVL : lookupField r.data "VL" = none
      ∨ ∃ s, lookupField r.data "VL" = some (FieldValue.str s))
    (hBP : lookupField r.data "BP" = none
      ∨ ∃ s, lookupField r.data "BP" = some (FieldValue.str s))
    (hDI : lookupField r.data "DI" = none
      ∨ ∃ s, lookupField r.data "DI" = some (FieldValue.str s)) :
    Record.record_id r = Except.ok (claimRecordId r.data a y) := by
  rcases hJ9 with hJ9 | ⟨s1, hJ9⟩ <;>
    rcases hBS with hBS | ⟨s2, hBS⟩ <;>
    rcases hSO with hSO | ⟨s3, hSO⟩ <;>
    rcases hVL with hVL | ⟨s4, hVL⟩ <;>
    rcases hBP with hBP | ⟨s5, hBP⟩ <;>
    rcases hDI with hDI | ⟨s6, hDI⟩ <;>
    simp [Record.record_id, claimRecordId, claimJournal, strFieldOf,
      journalField, concatComp, fvIndex0, fvJoinValue, hau, hpy, hJ9, hBS,
      hSO, hVL, hBP, hDI]

/-- Witness for C10 on a concrete record with AU, PY, J9 and VL. -/
theorem c10_record_id_witness :
    Record.record_id ⟨"; ", true,
        [("AU", FieldValue.list ["Doe, John"]),
         ("PY", FieldValue.str "2015"), ("J9", FieldValue.str "J IRR"),
         ("VL", FieldValue.str "7")]⟩
      = Except.ok (claimRecordId
          [("AU", FieldValue.list ["Doe, John"]),
           ("PY", FieldValue.str "2015"), ("J9", FieldValue.str "J IRR"),
           ("VL", FieldValue.str "7")] "Doe, John" "2015")
    ∧ claimRecordId
        [("AU", FieldValue.list ["Doe, John"]),
         ("PY", FieldValue.str "2015"), ("J9", FieldValue.str "J IRR"),
         ("VL", FieldValue.str "7")] "Doe, John" "2015"
      = "Doe John, 2015, J IRR, V7" :=
  ⟨c10_record_id _ "Doe, John" "2015" [] (by decide) (by decide)
    (Or.inr ⟨"J IRR", by decide⟩) (Or.inl (by decide))
    (Or.inl (by decide)) (Or.inr ⟨"7", by decide⟩)
    (Or.inl (by decide)) (Or.inl (by decide)), by decide⟩

end Wosfile
